import Mathlib

/-!
# Verification of the MVT imagery provider's tile rendering & picking engine

Shallow embedding of `reearth/reearth-cesium-mvt-imagery-provider`:

* `workerPool` (keyed variant, `src/unnamed/part_000`): pool registry,
  `canQueue`, `destroy`.
* `renderer.ts` (`src/src/renderer.ts`, with the `part_001` variant where the
  two differ): `buildURLWithTileCoordinates`, `_renderCanvas`'s data-tile /
  URL selection, `_renderPolygon`, `_cachedTile`, `tileToCacheable`,
  `_pickFeaturesFromLayer` / `_pickFeatures`.
* `types.ts` (`MVTImageryProvider.requestImage`): admission control and the
  outstanding-task counter.

External collaborators (the network `fetch`, the binary MVT decoder, the
style evaluator, `isFeatureClicked`, `onSelectFeature`, the 2D canvas) are
modelled as parameters or as abstract operation traces.  JavaScript `Map`
objects become association lists, exceptions become `Except`, `undefined`
becomes `Option`.
-/

namespace MVT

/-- A 2D point (`@mapbox/point-geometry`); tile-local vector coordinates are
integral. -/
structure Pt where
  x : Int
  y : Int
deriving DecidableEq, Repr

/-- `feature.loadGeometry()` result: a list of rings / point sequences. -/
abbrev Geometry := List (List Pt)

/-- `feature.bbox()` result `[minX, minY, maxX, maxY]`. -/
structure BBox where
  minX : Int
  minY : Int
  maxX : Int
  maxY : Int
deriving DecidableEq, Repr

/-- `TileCoordinates` from `src/src/types.ts` (integer quad-tree address). -/
structure TileCoordinates where
  x : Nat
  y : Nat
  level : Nat
deriving DecidableEq, Repr

/-! ## String machinery for `buildURLWithTileCoordinates`

The source resolves the URL by `decodeURIComponent` followed by three
single-occurrence `String.prototype.replace` calls.  We model strings as
`List Char`. -/

/-- The JavaScript builtin `decodeURIComponent` is an external collaborator;
the renderer applies it to the URL template before substitution.  We
parameterize over it (as we do over `fetch` and the binary decoder).  On a
string containing no `%` the builtin is the identity, which is the only fact
about it the source relies on for the templates appearing here; closed
theorems therefore instantiate the parameter with the identity function. -/
abbrev URIDecoder := List Char → List Char

/-- Model of JavaScript `String.prototype.replace` with a string pattern:
replaces the first occurrence only (the replacement strings used by the
source are plain decimal digits, so `$`-patterns never arise). -/
def replaceFirst : List Char → List Char → List Char → List Char
  | [], _, _ => []
  | c :: rest, pat, rep =>
    if pat.isPrefixOf (c :: rest) then rep ++ (c :: rest).drop pat.length
    else c :: replaceFirst rest pat rep

/-- Worker for `decimalDigits`, structurally recursive on a fuel argument so
that the kernel can evaluate it; `fuel = n + 1` always suffices because the
argument shrinks by a factor of 10 each step. -/
def decimalDigitsAux (fuel : Nat) (n : Nat) : List Char :=
  match fuel with
  | 0 => []
  | fuel + 1 =>
    if n < 10 then [Nat.digitChar n]
    else decimalDigitsAux fuel (n / 10) ++ [Nat.digitChar (n % 10)]

/-- Model of JavaScript `String(n)` for a nonnegative integer: unpadded
decimal digits. -/
def decimalDigits (n : Nat) : List Char := decimalDigitsAux (n + 1) n


/-! ## URL resolution (`buildURLWithTileCoordinates`) and over-zoom data-tile
selection -/

/-- The literal placeholder `"{z}"`. -/
def zPat : List Char := ['{', 'z', '}']

/-- The literal placeholder `"{x}"`. -/
def xPat : List Char := ['{', 'x', '}']

/-- The literal placeholder `"{y}"`. -/
def yPat : List Char := ['{', 'y', '}']

/-- `buildURLWithTileCoordinates` from `src/src/renderer.ts:424-430`: decode
the template, then substitute the first occurrence of each of `{z}`, `{x}`,
`{y}` with the tile's level, x, y rendered as unpadded decimal.  No clamping
of any kind is performed. -/
def buildURLWithTileCoordinates (decodeURI : URIDecoder) (template : List Char)
    (tile : TileCoordinates) : List Char :=
  let decodedTemplate := decodeURI template
  let z := replaceFirst decodedTemplate zPat (decimalDigits tile.level)
  let x := replaceFirst z xPat (decimalDigits tile.x)
  let y := replaceFirst x yPat (decimalDigits tile.y)
  y

/-- The variant `buildURLWithTileCoordinates` from `src/unnamed/part_001:419-430`
(identical in `part_002:441-452`): same substitution, except the substituted
level is clamped at a hardcoded 15 (`tile.level <= 15 ? tile.level : 15`).
The variant declares a third parameter `_maximumLevel = 24` that it never
reads, so it is omitted here. -/
def buildURLWithTileCoordinatesVariant (decodeURI : URIDecoder) (template : List Char)
    (tile : TileCoordinates) : List Char :=
  let decodedTemplate := decodeURI template
  let z := replaceFirst decodedTemplate zPat
    (decimalDigits (if tile.level ≤ 15 then tile.level else 15))
  let x := replaceFirst z xPat (decimalDigits tile.x)
  let y := replaceFirst x yPat (decimalDigits tile.y)
  y

/-- Claim-side definition (spec §6 / C7 wording): substitution with the level
clamped to the configured maximum native zoom before substitution.  Compared
against `buildURLWithTileCoordinates` for the refinement check. -/
def specResolvedURLClamped (decodeURI : URIDecoder) (template : List Char)
    (tile : TileCoordinates) (maximumNativeZoom : Nat) : List Char :=
  let decodedTemplate := decodeURI template
  let z := replaceFirst decodedTemplate zPat (decimalDigits (min tile.level maximumNativeZoom))
  let x := replaceFirst z xPat (decimalDigits tile.x)
  let y := replaceFirst x yPat (decimalDigits tile.y)
  y

/-- Result of `dataTileForDisplayTile`: the source data tile, the pixel origin
offset `po`, and the geometry scale factor `ps`. -/
structure DataTilePlan where
  dataTile : TileCoordinates
  po : Pt
  ps : Nat
deriving DecidableEq, Repr

/-- Modelled from the spec: `dataTileForDisplayTile` lives in `src/utils.ts`,
which is not present under `src/` (only its importers are).  Spec §4.3(4) and
§8: when the requested display level exceeds the maximum source level,
substitute the nearest ancestor tile at the maximum source level as the data
source, with scale factor `ps = 2^(displayLevel − maximumLevel)` (a power of
two ≥ 1) and the pixel-space origin offset of the display tile within the
magnified ancestor (256 pixels per display tile); otherwise the data tile is
the display tile itself with `ps = 1` and zero offset. -/
def dataTileForDisplayTile (requestedTile : TileCoordinates) (maximumLevel : Nat) :
    DataTilePlan :=
  if requestedTile.level ≤ maximumLevel then
    { dataTile := requestedTile, po := ⟨0, 0⟩, ps := 1 }
  else
    let d := requestedTile.level - maximumLevel
    let ps := 2 ^ d
    { dataTile := { x := requestedTile.x / ps, y := requestedTile.y / ps, level := maximumLevel },
      po := ⟨256 * ((requestedTile.x % ps : Nat) : Int), 256 * ((requestedTile.y % ps : Nat) : Int)⟩,
      ps := ps }

/-- The data-selection outcome of `_renderCanvas`. -/
structure RenderCanvasDataPlan where
  usedMaximumLevel : Nat
  po : Pt
  url : List Char
deriving DecidableEq, Repr

/-- Data-selection prefix of `Renderer._renderCanvas` from
`src/src/renderer.ts:99-121`: the `maximumLevel` parameter is logged and then
unconditionally overwritten with 24 (line 110); only `po` is destructured from
`dataTileForDisplayTile` (`ps` and the data tile are discarded); and the
fetched URL is built from the *requested* tile, not the data tile (line 118). -/
def renderCanvasDataPlan (decodeURI : URIDecoder) (template : List Char)
    (requestedTile : TileCoordinates) (_maximumLevel : Nat) : RenderCanvasDataPlan :=
  let m := 24
  let plan := dataTileForDisplayTile requestedTile m
  { usedMaximumLevel := m
    po := plan.po
    url := buildURLWithTileCoordinates decodeURI template requestedTile }

/-- The data-selection outcome of the variant `_renderCanvas`. -/
structure RenderCanvasDataPlanV where
  dataTile : TileCoordinates
  po : Pt
  ps : Nat
  url : List Char
deriving DecidableEq, Repr

/-- Data-selection prefix of the variant `Renderer._renderCanvas` from
`src/unnamed/part_001:101-117`: destructures `dataTile`, `po`, `ps` from
`dataTileForDisplayTile` and builds the fetched URL from the data tile, using
the variant URL builder.  A missing `maximumLevel` defaults to 24 (as in the
protomaps-based variant, `part_002:118`). -/
def renderCanvasDataPlanVariant (decodeURI : URIDecoder) (template : List Char)
    (requestedTile : TileCoordinates) (maximumLevel : Option Nat) : RenderCanvasDataPlanV :=
  let plan := dataTileForDisplayTile requestedTile (maximumLevel.getD 24)
  { dataTile := plan.dataTile
    po := plan.po
    ps := plan.ps
    url := buildURLWithTileCoordinatesVariant decodeURI template plan.dataTile }


/-! ## Polygon draw batching (`_renderPolygon`) -/

/-- Abstract drawing-surface operations (the 2D canvas is an external
collaborator; the renderer is verified through the operation trace it emits). -/
inductive CanvasOp where
  | beginPath
  | moveTo (p : Pt)
  | lineTo (p : Pt)
  | fill
  | stroke
deriving DecidableEq, Repr

/-- `MAX_VERTICES_PER_CALL` from `src/src/renderer.ts:14`. -/
def MAX_VERTICES_PER_CALL : Nat := 5400

/-- The operations the local `draw()` closure emits
(`src/src/renderer.ts:210-215`): stroke iff `shouldRenderLine` — which the
caller at line 183 sets to `(style.lineWidth ?? 1) > 0` — then fill. -/
def drawOps (shouldRenderLine : Bool) : List CanvasOp :=
  (if shouldRenderLine then [CanvasOp.stroke] else []) ++ [CanvasOp.fill]

/-- Ring loop of `_renderPolygon` (`src/src/renderer.ts:217-238`), emitting
the canvas operations that follow the initial `beginPath`.  When the pending
vertex count plus the next ring's size exceeds the ceiling, the accumulated
path is flushed (`draw()` then `beginPath`) and the count resets to 0 before
the ring is added; in either case the ring is emitted as `moveTo` of its first
vertex followed by `lineTo` of the rest, and its size is added to the count.
An empty ring makes the JavaScript throw (`v[0]` is `undefined`, so `pos.x`
raises `TypeError`); this is modelled by `Except.error`. -/
def renderPolygonGo (shouldRenderLine : Bool) :
    List (List Pt) → Nat → Except String (List CanvasOp)
  | [], verticesLength =>
    if verticesLength > 0 then .ok (drawOps shouldRenderLine) else .ok []
  | v :: rest, verticesLength =>
    if verticesLength + v.length > MAX_VERTICES_PER_CALL then
      match v with
      | [] => .error "TypeError: v[0] is undefined"
      | p :: ps =>
        match renderPolygonGo shouldRenderLine rest (0 + v.length) with
        | .error e => .error e
        | .ok tail =>
          .ok ((drawOps shouldRenderLine ++ [CanvasOp.beginPath])
                ++ CanvasOp.moveTo p :: (ps.map CanvasOp.lineTo ++ tail))
    else
      match v with
      | [] => .error "TypeError: v[0] is undefined"
      | p :: ps =>
        match renderPolygonGo shouldRenderLine rest (verticesLength + v.length) with
        | .error e => .error e
        | .ok tail => .ok (CanvasOp.moveTo p :: (ps.map CanvasOp.lineTo ++ tail))

/-- `Renderer._renderPolygon` (`src/src/renderer.ts:202-239`) as a canvas
operation trace. -/
def renderPolygon (coordinates : List (List Pt)) (shouldRenderLine : Bool) :
    Except String (List CanvasOp) :=
  match renderPolygonGo shouldRenderLine coordinates 0 with
  | .error e => .error e
  | .ok t => .ok (CanvasOp.beginPath :: t)

/-- Claim-side flush counter (spec §4.3, Polygon batching): walking the ring
sizes with an accumulated vertex count, a flush happens exactly when adding
the next ring would push the accumulated count above the ceiling, plus one
final flush when accumulated vertices remain. -/
def specPolygonFlushCount : List Nat → Nat → Nat
  | [], verticesLength => if verticesLength > 0 then 1 else 0
  | len :: rest, verticesLength =>
    if verticesLength + len > MAX_VERTICES_PER_CALL then 1 + specPolygonFlushCount rest len
    else specPolygonFlushCount rest (verticesLength + len)

/-- Number of `fill` calls in a trace — one per flush. -/
def fillCount (ops : List CanvasOp) : Nat := ops.count CanvasOp.fill

/-- Number of `stroke` calls in a trace. -/
def strokeCount (ops : List CanvasOp) : Nat := ops.count CanvasOp.stroke


/-! ## Tile cache (`_cachedTile`, `tileToCacheable`)

The network (`fetch`) and the binary decoder (`new VectorTile(new Pbf(ab))`)
are external collaborators, passed in as oracles `fetchBuf` (`none` models a
fetch that failed and was caught by `.catch(() => {})`) and `decodeMVT`
(`Except.error` models a thrown decode error — `requestImage` at
`src/src/types.ts:264-269` catches exactly such thrown `Unimplemented type`
errors, so the decoder can throw).  Parse work performed by the lazy raw
accessors is made observable by threading a counter. -/

/-- Raw tile bytes (an `ArrayBuffer`). -/
abbrev Bytes := List Nat

/-- A feature of a freshly decoded tile, before `tileToCacheable`.  The
decoder exposes geometry and bounding box through lazy re-parsing accessors;
`geoData`/`bboxData` are the (deterministic) values those accessors produce
(`bboxData = none` when the optional `bbox` method is absent). -/
structure RawFeature where
  id : Option Nat
  ftype : Nat
  geoData : Geometry
  bboxData : Option BBox

/-- `feature.loadGeometry()` on a raw feature: returns the geometry and
performs one unit of parse work. -/
def rawLoadGeometry (f : RawFeature) (k : Nat) : Geometry × Nat := (f.geoData, k + 1)

/-- `feature.bbox?.()` on a raw feature: when the optional accessor exists it
returns the box and performs one unit of parse work; otherwise `undefined`
with no work. -/
def rawBbox (f : RawFeature) (k : Nat) : Option BBox × Nat :=
  match f.bboxData with
  | none => (none, k)
  | some b => (some b, k + 1)

/-- A raw `VectorTileLayer`: `length` features, accessed by `layer.feature(i)`. -/
structure RawLayer where
  extent : Nat
  length : Nat
  featureAt : Nat → RawFeature

/-- A raw `VectorTile`: `Object.entries(v.layers)` in insertion order. -/
structure RawVectorTile where
  layers : List (String × RawLayer)

/-- A feature after `tileToCacheable`: geometry and bbox captured once. -/
structure CachedFeature where
  id : Option Nat
  ftype : Nat
  geo : Geometry
  bboxv : Option BBox
deriving DecidableEq, Repr

/-- The memoizing accessor `loadGeometry: () => geo`
(`src/src/renderer.ts:410`): returns the captured value, no parse work. -/
def CachedFeature.loadGeometry (f : CachedFeature) (k : Nat) : Geometry × Nat := (f.geo, k)

/-- The memoizing accessor `bbox: bbox ? () => bbox : undefined`
(`src/src/renderer.ts:411`). -/
def CachedFeature.bboxFn (f : CachedFeature) : Option (Nat → BBox × Nat) :=
  f.bboxv.map (fun b => fun k => (b, k))

/-- A layer after `tileToCacheable`: the spread `...layer` keeps `extent` and
`length` (which equals the built feature array's length by construction), and
`feature: i => features[i]` serves from the array. -/
structure CachedLayer where
  extent : Nat
  features : List CachedFeature
deriving DecidableEq, Repr

/-- A tile after `tileToCacheable` — the value type of `_tileCaches`. -/
structure CachedTile where
  layers : List (String × CachedLayer)
deriving DecidableEq, Repr

/-- One iteration of the feature loop of `tileToCacheable`
(`src/src/renderer.ts:403-415`): call `layer.feature(i)`, evaluate
`loadGeometry()` and `bbox?.()` once, and push a feature whose accessors
return the captured values. -/
def cacheFeatureStep (layer : RawLayer) (acc : List CachedFeature × Nat) (i : Nat) :
    List CachedFeature × Nat :=
  let feature := layer.featureAt i
  let geoK := rawLoadGeometry feature acc.2
  let bbK := rawBbox feature geoK.2
  (acc.1 ++ [{ id := feature.id, ftype := feature.ftype, geo := geoK.1, bboxv := bbK.1 }],
    bbK.2)

/-- The feature loop of `tileToCacheable` over `i ∈ [0, layer.length)`. -/
def cacheFeatures (layer : RawLayer) (k : Nat) : List CachedFeature × Nat :=
  (List.range layer.length).foldl (cacheFeatureStep layer) ([], k)

/-- The layer loop of `tileToCacheable` (`src/src/renderer.ts:400-420`). -/
def tileToCacheableSome (v : RawVectorTile) (k : Nat) : CachedTile × Nat :=
  let r := v.layers.foldl
    (fun (acc : List (String × CachedLayer) × Nat) kv =>
      let fk := cacheFeatures kv.2 acc.2
      (acc.1 ++ [(kv.1, { extent := kv.2.extent, features := fk.1 })], fk.2))
    ([], k)
  ({ layers := r.1 }, r.2)

/-- `tileToCacheable` (`src/src/renderer.ts:397-422`): `undefined` passes
through; otherwise every layer's features are eagerly evaluated and captured. -/
def tileToCacheable (v : Option RawVectorTile) (k : Nat) : Option CachedTile × Nat :=
  match v with
  | none => (none, k)
  | some v =>
    let r := tileToCacheableSome v k
    (some r.1, r.2)

/-- The renderer's mutable cache state plus instrumentation counters:
`entries` is the `_tileCaches` map (association list in insertion order),
`fetchCount` counts network fetches, `decodeCount` counts `parseMVT`
invocations, and `geomCount` counts raw accessor parse work. -/
structure TileCacheState where
  entries : List (String × CachedTile)
  fetchCount : Nat
  decodeCount : Nat
  geomCount : Nat
deriving DecidableEq, Repr

/-- The empty, zero-instrumentation cache state. -/
def emptyCacheState : TileCacheState :=
  { entries := [], fetchCount := 0, decodeCount := 0, geomCount := 0 }

/-- JavaScript `Map.prototype.set`: overwrite in place when the key exists,
append otherwise. -/
def mapSet {α : Type} (m : List (String × α)) (key : String) (v : α) : List (String × α) :=
  match m with
  | [] => [(key, v)]
  | (k', v') :: rest => if k' = key then (k', v) :: rest else (k', v') :: mapSet rest key v

/-- JavaScript falsiness of the `currentUrl`/`url` argument (`!url`):
`undefined` (modelled `none`) or the empty string. -/
def urlFalsy : Option String → Bool
  | none => true
  | some s => s == ""

/-- `fetchResourceAsArrayBuffer` (`src/src/renderer.ts:29-37`): throws when
the url is falsy; otherwise fetches, with any network/body failure caught and
turned into `undefined` by `.catch(() => {})`. -/
def fetchResourceAsArrayBuffer (fetchBuf : String → Option Bytes) (url : Option String)
    (s : TileCacheState) : Except String (Option Bytes) × TileCacheState :=
  if urlFalsy url then
    (.error "fetch request is failed because request url is undefined", s)
  else
    (.ok (fetchBuf (url.getD "")), { s with fetchCount := s.fetchCount + 1 })

/-- `defaultParseTile` (`src/src/renderer.ts:16-23`): fetch; return
`undefined` when there is no buffer; otherwise decode with `parseMVT`.  A
decode error thrown by the external decoder is *not* caught here. -/
def defaultParseTile (fetchBuf : String → Option Bytes)
    (decodeMVT : Bytes → Except String RawVectorTile) (url : Option String)
    (s : TileCacheState) : Except String (Option RawVectorTile) × TileCacheState :=
  match fetchResourceAsArrayBuffer fetchBuf url s with
  | (.error e, s1) => (.error e, s1)
  | (.ok none, s1) => (.ok none, s1)
  | (.ok (some ab), s1) =>
    match decodeMVT ab with
    | .error e => (.error e, { s1 with decodeCount := s1.decodeCount + 1 })
    | .ok t => (.ok (some t), { s1 with decodeCount := s1.decodeCount + 1 })

/-- `Renderer._cachedTile` (`src/src/renderer.ts:382-391`): falsy url returns
`undefined` with no effect; a cache hit returns the stored tile; a miss
parses, caches the result only when one was produced, and returns it. -/
def cachedTile (fetchBuf : String → Option Bytes)
    (decodeMVT : Bytes → Except String RawVectorTile) (currentUrl : Option String)
    (s : TileCacheState) : Except String (Option CachedTile) × TileCacheState :=
  if urlFalsy currentUrl then (.ok none, s)
  else
    let u := currentUrl.getD ""
    match s.entries.lookup u with
    | some t => (.ok (some t), s)
    | none =>
      match defaultParseTile fetchBuf decodeMVT currentUrl s with
      | (.error e, s1) => (.error e, s1)
      | (.ok raw, s1) =>
        let tk := tileToCacheable raw s1.geomCount
        let s2 := { s1 with geomCount := tk.2 }
        match tk.1 with
        | some t => (.ok (some t), { s2 with entries := mapSet s2.entries u t })
        | none => (.ok none, s2)


/-! ## Feature picking (`_pickFeatures`, `_pickFeaturesFromLayer`)

The geographic projection that produces the query `point`, the point-in-polygon
test `isFeatureClicked` (`src/terria.ts`, not under `src/`) and the selection
transform `onSelectFeature` (`src/featureSelect.ts`, not under `src/`) are
external to the picking loop; they enter as the parameters `hit` (standing for
`isFeatureClicked(feature.loadGeometry(), point)` at the already-projected
query point) and `onSelect` (standing for
`onSelectFeature(feature, requestedTile, currentLayer)`). -/

/-- The JavaScript array `VectorTileFeature.types`. -/
def vectorTileFeatureTypes : List String := ["Unknown", "Point", "LineString", "Polygon"]

/-- `VectorTileFeature.types[feature.type] === "Polygon"` (out-of-range
indexing yields `undefined`, which is not `"Polygon"`). -/
def isPolygonType (t : Nat) : Bool := vectorTileFeatureTypes[t]? == some "Polygon"

/-- The feature loop of `Renderer._pickFeatures` (`src/src/renderer.ts:366-377`):
for `i` in `[0, layer.length)` in order, a feature of Polygon type whose
geometry is hit contributes the transform's result to `features`, unless the
transform declines. -/
def pickFeaturesLayer {Info : Type} (hit : Geometry → Bool)
    (onSelect : CachedFeature → Option Info) (layer : CachedLayer) : List Info :=
  (List.range layer.features.length).foldl
    (fun features i =>
      match layer.features[i]? with
      | none => features
      | some feature =>
        if isPolygonType feature.ftype && hit (feature.loadGeometry 0).1 then
          match onSelect feature with
          | some feat => features ++ [feat]
          | none => features
        else features) []

/-- `Renderer._pickFeaturesFromLayer` (`src/src/renderer.ts:290-314`): each
requested layer name in declaration order contributes `[]` when the layer (or
the tile) is absent, else its `_pickFeatures` result; `Promise.all` preserves
the order and the results are flattened (`pf.flat()`).  (The `if (f) return f`
guard is the identity: `_pickFeatures` always returns an array.) -/
def pickFeaturesFromLayer {Info : Type} (hit : Geometry → Bool)
    (onSelect : CachedFeature → Option Info) (tile? : Option CachedTile)
    (layerNames : List String) : List Info :=
  (layerNames.map (fun name =>
    match tile?.bind (fun tile => tile.layers.lookup name) with
    | none => []
    | some layer => pickFeaturesLayer hit onSelect layer)).flatten

/-- The per-feature decision of the picking loop, as a filter. -/
def pickOne {Info : Type} (hit : Geometry → Bool) (onSelect : CachedFeature → Option Info)
    (f : CachedFeature) : Option Info :=
  if isPolygonType f.ftype && hit (f.loadGeometry 0).1 then onSelect f else none

/-- Claim-side formulation (C8 / spec §4.4(5)): the concatenation over layers
in declaration order of, per layer, the in-order hits filtered through the
selection transform; an absent layer contributes the empty sequence. -/
def pickSpec {Info : Type} (hit : Geometry → Bool)
    (onSelect : CachedFeature → Option Info) (tile? : Option CachedTile)
    (layerNames : List String) : List Info :=
  layerNames.flatMap (fun name =>
    match tile?.bind (fun tile => tile.layers.lookup name) with
    | none => []
    | some layer => layer.features.filterMap (pickOne hit onSelect))

/-! ## Worker pool (`src/unnamed/part_000`, the keyed variant)

Tasks are opaque (`Nat`); threads-library pools are represented by their
observable state: the layer key, the pending `taskQueue`, and the worker
count. -/

/-- One worker pool (`part_000:6-11`): `layerId` tags the pool, `taskQueue`
is the pending-task queue, `size` the worker count. -/
structure WorkerPool where
  layerId : String
  taskQueue : List Nat
  size : Nat
deriving DecidableEq, Repr

/-- The module-level `workerPools` array (`part_000:11`). -/
abbrev PoolRegistry := List WorkerPool

/-- `get(layerId)` (`part_000:13-23`): find the pool for the key; when absent,
create one with `Math.ceil(navigator.hardwareConcurrency / 4)` workers and
push it. -/
def getPool (pools : PoolRegistry) (layerId : String) (hardwareConcurrency : Nat) :
    WorkerPool × PoolRegistry :=
  match pools.find? (fun pool => pool.layerId == layerId) with
  | some workerPool => (workerPool, pools)
  | none =>
    let workerPool : WorkerPool :=
      { layerId := layerId, taskQueue := [], size := (hardwareConcurrency + 3) / 4 }
    (workerPool, pools ++ [workerPool])

/-- `queue(task, layerId)` (`part_000:27-32`): `get(layerId).queue(...)` —
the task is appended to the queue of the pool `get` returned.  (`get` keeps
keys unique, so updating by key touches exactly that pool.) -/
def queueTask (pools : PoolRegistry) (layerId : String) (task : Nat)
    (hardwareConcurrency : Nat) : PoolRegistry :=
  (getPool pools layerId hardwareConcurrency).2.map
    (fun pool =>
      if pool.layerId == layerId then { pool with taskQueue := pool.taskQueue ++ [task] }
      else pool)

/-- `canQueue(layerId, maxQueuedJobs)` (`part_000:34-37`):
`workerPool == null || workerPool.taskQueue.length < maxQueuedJobs`.  A pure
query — its translation consumes no state. -/
def canQueue (pools : PoolRegistry) (layerId : String) (maxQueuedJobs : Int) : Bool :=
  match pools.find? (fun pool => pool.layerId == layerId) with
  | none => true
  | some workerPool => decide ((workerPool.taskQueue.length : Int) < maxQueuedJobs)

/-- A call to `pool.terminate(force)` recorded by `destroy`: `force = true`
means the threads library kills the workers immediately instead of awaiting
queued and in-flight tasks. -/
structure TerminateCall where
  layerId : String
  force : Bool
deriving DecidableEq, Repr

/-- `destroy(layerId)` (`part_000:39-46`): `findIndex` the pool for the key;
when found, `await terminate(true)` it and `splice` it out; otherwise do
nothing.  Finding the first matching index and splicing it is rendered as
removal of the first match. -/
def destroyPool : PoolRegistry → String → List TerminateCall × PoolRegistry
  | [], _ => ([], [])
  | pool :: rest, layerId =>
    if pool.layerId == layerId then
      ([{ layerId := pool.layerId, force := true }], rest)
    else
      let r := destroyPool rest layerId
      (r.1, pool :: r.2)

/-- The registry invariant (spec §3): at most one pool per live layer key
(maintained by `get`, which creates a pool only when none exists). -/
abbrev keysNodup (pools : PoolRegistry) : Prop :=
  (pools.map (fun pool => pool.layerId)).Nodup

/-! ## `MVTImageryProvider.requestImage` admission control (`src/src/types.ts`) -/

/-- `MVTImageryProvider.maximumTasks` (`types.ts:70`). -/
def maximumTasks : Nat := 50

/-- `MVTImageryProvider.maximumTasksPerImagery` (`types.ts:71`). -/
def maximumTasksPerImagery : Nat := 6

/-- `LayerSimple` (from `src/styleEvaluator/types.ts`, not under `src/`):
for admission control only its `id` and the possibility of two non-equal
values sharing an `id` matter; `payload` stands for the remaining fields, and
lodash `isEqual` is structural equality. -/
structure LayerSimple where
  id : String
  payload : Nat
deriving DecidableEq, Repr

/-- The provider's admission-control state: the `taskCount` field (a JS
number, so `Int`), the ghost count `outstanding` of started-but-unsettled
tasks, the worker-pool registry, and the module-level `layerUsed`. -/
structure ProviderState where
  taskCount : Int
  outstanding : Nat
  pools : PoolRegistry
  layerUsed : Option LayerSimple
deriving DecidableEq, Repr

/-- How a `requestImage` call returned. -/
inductive RequestOutcome where
  | noLayer
  | backpressure
  | started
deriving DecidableEq, Repr

/-- The layer-switch teardown of `requestImage` (`types.ts:211-218`): when a
`layerUsed` exists, differs from the current layer under lodash `isEqual`, and
shares its `id`, the old pool is destroyed. -/
def switchPools (st : ProviderState) (cl : LayerSimple) : PoolRegistry :=
  match st.layerUsed with
  | some layerUsed =>
    if ¬(layerUsed = cl) ∧ layerUsed.id = cl.id then (destroyPool st.pools layerUsed.id).2
    else st.pools
  | none => st.pools

/-- `MVTImageryProvider.requestImage` (`src/src/types.ts:201-273`), at the
admission-control level:

* no current layer → return `undefined` before doing anything (line 209);
* destroy the old pool when the layer changed but kept its id (lines 211-219),
  then record `layerUsed = currentLayer`;
* with worker mode on, return `undefined` when
  `taskCount >= maximumTasksPerImagery` or `!canQueue(id, maximumTasks)`
  (lines 220-226);
* otherwise `++taskCount` (line 247) and start the render task (the
  `tileCache` field is declared but never assigned, `types.ts:74`, so the
  cache-hit early return at lines 229-232 is unreachable; canvas creation and
  scale-factor computation do not touch the admission state). -/
def requestImage (useWorker : Bool) (hardwareConcurrency : Nat)
    (currentLayer : Option LayerSimple) (st : ProviderState) :
    RequestOutcome × ProviderState :=
  match currentLayer with
  | none => (.noLayer, st)
  | some cl =>
    let st2 := { st with pools := switchPools st cl, layerUsed := some cl }
    if useWorker ∧ ((maximumTasksPerImagery : Int) ≤ st2.taskCount
        ∨ canQueue st2.pools cl.id (maximumTasks : Int) = false) then
      (.backpressure, st2)
    else
      (.started,
        { st2 with
            taskCount := st2.taskCount + 1
            outstanding := st2.outstanding + 1
            pools := queueTask st2.pools cl.id 0 hardwareConcurrency })

/-- A started task settling (success or failure): the single
`.finally(() => { --this.taskCount; })` at `types.ts:270-272`. -/
def settleTask (st : ProviderState) : ProviderState :=
  { st with taskCount := st.taskCount - 1, outstanding := st.outstanding - 1 }

/-- The C10 invariant: the counter equals the number of unsettled started
tasks and stays within the per-imagery ceiling. -/
abbrev ProviderInvariant (st : ProviderState) : Prop :=
  st.taskCount = (st.outstanding : Int) ∧ st.outstanding ≤ maximumTasksPerImagery

/-- A small concrete decoded tile, used to instantiate theorems about
`tileToCacheable` at a concrete input. -/
def rawTileExample : RawVectorTile :=
  { layers := [("buildings",
      { extent := 4096, length := 1,
        featureAt := fun _ =>
          { id := some 1, ftype := 3,
            geoData := [[⟨0, 0⟩, ⟨0, 10⟩, ⟨10, 10⟩, ⟨0, 0⟩]],
            bboxData := some ⟨0, 0, 10, 10⟩ } })] }

/-! # Theorems

Helper lemmas first, then one theorem per claim (with witnesses and
counterexamples where applicable). -/

theorem digitChar_isDigit {d : Nat} (h : d < 10) : (Nat.digitChar d).isDigit := by
  interval_cases d <;> decide

theorem decimalDigitsAux_isDigit (fuel : Nat) :
    ∀ n, ∀ c ∈ decimalDigitsAux fuel n, c.isDigit := by
  induction fuel with
  | zero => intro n c hc; simp [decimalDigitsAux] at hc
  | succ fuel ih =>
    intro n c hc
    rw [decimalDigitsAux] at hc
    by_cases h : n < 10
    · simp only [if_pos h, List.mem_singleton] at hc
      exact hc ▸ digitChar_isDigit h
    · simp only [if_neg h, List.mem_append, List.mem_singleton] at hc
      rcases hc with hc | hc
      · exact ih (n / 10) c hc
      · exact hc ▸ digitChar_isDigit (Nat.mod_lt n (by omega))

theorem decimalDigits_isDigit (n : Nat) : ∀ c ∈ decimalDigits n, c.isDigit :=
  decimalDigitsAux_isDigit (n + 1) n

theorem decimalDigits_not_brace (n : Nat) : '{' ∉ decimalDigits n := by
  intro h
  have := decimalDigits_isDigit n '{' h
  simp [Char.isDigit] at this

/-- `replaceFirst` substitutes at the marked occurrence when no occurrence of
the pattern (which starts with `'{'`) can begin earlier. -/
theorem replaceFirst_append {a b rep tl : List Char} (ha : '{' ∉ a) :
    replaceFirst (a ++ ('{' :: tl) ++ b) ('{' :: tl) rep = a ++ rep ++ b := by
  induction a with
  | nil =>
    simp only [List.nil_append]
    have hpre : ('{' :: tl).isPrefixOf (('{' :: tl) ++ b) := by
      rw [ List.isPrefixOf_iff_prefix]
      exact List.prefix_append _ _
    simp only [List.cons_append, replaceFirst, ← List.cons_append, if_pos hpre]
    simp
  | cons c rest ih =>
    have hc : c ≠ '{' := fun hEq => ha (hEq ▸ List.mem_cons_self c rest)
    have hrest : '{' ∉ rest := fun hm => ha (List.mem_cons_of_mem c hm)
    have hnpre : ¬ ('{' :: tl).isPrefixOf (c :: (rest ++ ('{' :: tl) ++ b)) := by
      simp only [List.isPrefixOf, Bool.and_eq_true, beq_iff_eq]
      intro hand
      exact hc hand.1.symm
    simp only [List.cons_append, replaceFirst]
    rw [if_neg (by simpa using hnpre)]
    simpa using ih hrest

theorem replaceFirst_marker {a b rep pat : List Char} (tl : List Char)
    (hpat : pat = '{' :: tl) (ha : '{' ∉ a) :
    replaceFirst (a ++ pat ++ b) pat rep = a ++ rep ++ b := by
  subst hpat; exact replaceFirst_append ha

/-- C7 (amended): for every URL template of the shape
`t0 ++ "{z}" ++ t1 ++ "{x}" ++ t2 ++ "{y}" ++ t3` whose segments before the
placeholders contain no `'{'`, and on which `decodeURIComponent` acts as the
identity (as it does whenever the template contains no `%`), the resolved URL
is the template with `{z}`, `{x}`, `{y}` substituted by the tile's level, x, y
as unpadded decimal strings.  No clamping is applied to the level — the
claim's clamping clause fails on the code, see the counterexample. -/
theorem c7_url_substitution (decodeURI : URIDecoder)
    (t0 t1 t2 t3 : List Char) (tile : TileCoordinates)
    (h0 : '{' ∉ t0) (h1 : '{' ∉ t1) (h2 : '{' ∉ t2)
    (hdec : decodeURI (t0 ++ zPat ++ t1 ++ xPat ++ t2 ++ yPat ++ t3)
            = t0 ++ zPat ++ t1 ++ xPat ++ t2 ++ yPat ++ t3) :
    buildURLWithTileCoordinates decodeURI (t0 ++ zPat ++ t1 ++ xPat ++ t2 ++ yPat ++ t3) tile
      = t0 ++ decimalDigits tile.level ++ t1 ++ decimalDigits tile.x ++ t2
          ++ decimalDigits tile.y ++ t3 := by
  have hz : replaceFirst (t0 ++ zPat ++ t1 ++ xPat ++ t2 ++ yPat ++ t3) zPat
      (decimalDigits tile.level)
      = (t0 ++ decimalDigits tile.level ++ t1) ++ xPat ++ (t2 ++ yPat ++ t3) := by
    have h := @replaceFirst_marker t0 (t1 ++ xPat ++ t2 ++ yPat ++ t3)
      (decimalDigits tile.level) zPat ['z', '}'] rfl h0
    simp only [List.append_assoc] at h ⊢
    exact h
  have hax : '{' ∉ t0 ++ decimalDigits tile.level ++ t1 := by
    simp only [List.mem_append]
    rintro ((h | h) | h)
    · exact h0 h
    · exact decimalDigits_not_brace tile.level h
    · exact h1 h
  have hx : replaceFirst ((t0 ++ decimalDigits tile.level ++ t1) ++ xPat ++ (t2 ++ yPat ++ t3))
      xPat (decimalDigits tile.x)
      = (t0 ++ decimalDigits tile.level ++ t1 ++ decimalDigits tile.x ++ t2) ++ yPat ++ t3 := by
    have h := @replaceFirst_marker (t0 ++ decimalDigits tile.level ++ t1)
      (t2 ++ yPat ++ t3) (decimalDigits tile.x) xPat ['x', '}'] rfl hax
    simp only [List.append_assoc] at h ⊢
    exact h
  have hay : '{' ∉ t0 ++ decimalDigits tile.level ++ t1 ++ decimalDigits tile.x ++ t2 := by
    simp only [List.mem_append]
    rintro ((((h | h) | h) | h) | h)
    · exact h0 h
    · exact decimalDigits_not_brace tile.level h
    · exact h1 h
    · exact decimalDigits_not_brace tile.x h
    · exact h2 h
  have hy : replaceFirst
      ((t0 ++ decimalDigits tile.level ++ t1 ++ decimalDigits tile.x ++ t2) ++ yPat ++ t3)
      yPat (decimalDigits tile.y)
      = t0 ++ decimalDigits tile.level ++ t1 ++ decimalDigits tile.x ++ t2
          ++ decimalDigits tile.y ++ t3 := by
    have h := @replaceFirst_marker
      (t0 ++ decimalDigits tile.level ++ t1 ++ decimalDigits tile.x ++ t2)
      t3 (decimalDigits tile.y) yPat ['y', '}'] rfl hay
    simp only [List.append_assoc] at h ⊢
    exact h
  show replaceFirst (replaceFirst (replaceFirst
      (decodeURI (t0 ++ zPat ++ t1 ++ xPat ++ t2 ++ yPat ++ t3)) zPat (decimalDigits tile.level))
      xPat (decimalDigits tile.x)) yPat (decimalDigits tile.y) = _
  rw [hdec, hz, hx, hy]

/-- Witness for C7: the claim's own scenario — template
`"https://x/{z}/{x}/{y}.pbf"` with tile `{x:3, y:2, level:5}` resolves to
`"https://x/5/3/2.pbf"`. -/
theorem c7_url_substitution_witness :
    ('{' ∉ "https://x/".toList) ∧
    buildURLWithTileCoordinates (fun l => l) ("https://x/{z}/{x}/{y}.pbf".toList) ⟨3, 2, 5⟩
      = "https://x/5/3/2.pbf".toList := by
  refine ⟨by decide, ?_⟩
  have e : "https://x/{z}/{x}/{y}.pbf".toList
      = "https://x/".toList ++ zPat ++ "/".toList ++ xPat ++ "/".toList ++ yPat
          ++ ".pbf".toList := by decide
  rw [e, c7_url_substitution (fun l => l) _ _ _ _ ⟨3, 2, 5⟩
    (by decide) (by decide) (by decide) rfl]
  decide

/-- Counterexample for C7: the code performs no clamping at all.  With the
configured maximum native zoom 15, the claim resolves tile `{x:0,y:0,level:20}`
to `"https://x/15/0/0.pbf"`, but `buildURLWithTileCoordinates` substitutes the
unclamped level, yielding `"https://x/20/0/0.pbf"`.  (The `maximumNativeZoom`
option exists in `ImageryProviderOption` but is read nowhere; the variant
renderers clamp at a hardcoded 15 instead of the configured value.) -/
theorem c7_clamp_counterexample :
    buildURLWithTileCoordinates (fun l => l) ("https://x/{z}/{x}/{y}.pbf".toList) ⟨0, 0, 20⟩
      = "https://x/20/0/0.pbf".toList
    ∧ specResolvedURLClamped (fun l => l) ("https://x/{z}/{x}/{y}.pbf".toList) ⟨0, 0, 20⟩ 15
      = "https://x/15/0/0.pbf".toList
    ∧ buildURLWithTileCoordinates (fun l => l) ("https://x/{z}/{x}/{y}.pbf".toList) ⟨0, 0, 20⟩
      ≠ specResolvedURLClamped (fun l => l) ("https://x/{z}/{x}/{y}.pbf".toList) ⟨0, 0, 20⟩ 15 :=
  ⟨by decide, by decide, by decide⟩

/-- C6: evaluation of the code at the claim's scenario (display tile
`{x:3, y:2, level:20}`, configured maximum source level 15, template
`"https://x/{z}/{x}/{y}.pbf"`).  `_renderCanvas` in `src/src/renderer.ts`
overwrites its `maximumLevel` parameter with 24 and builds the fetched URL
from the *requested* tile, yielding `"https://x/20/3/2.pbf"` with a zero
origin offset — whereas the spec-modelled `dataTileForDisplayTile` yields the
ancestor `{x:0, y:0, level:15}` with `ps = 2^5 = 32` and nonzero origin
`(768, 512)`, from which the variant renderer (`part_001`) builds
`"https://x/15/0/0.pbf"`.  The requested-tile URL differs from the
ancestor-tile URL: the code contradicts the claimed (and intended) over-zoom
substitution. -/
theorem c6_overzoom_code_divergence :
    renderCanvasDataPlan (fun l => l) ("https://x/{z}/{x}/{y}.pbf".toList) ⟨3, 2, 20⟩ 15
      = { usedMaximumLevel := 24, po := ⟨0, 0⟩, url := "https://x/20/3/2.pbf".toList }
    ∧ dataTileForDisplayTile ⟨3, 2, 20⟩ 15
      = { dataTile := ⟨0, 0, 15⟩, po := ⟨768, 512⟩, ps := 32 }
    ∧ (renderCanvasDataPlanVariant (fun l => l) ("https://x/{z}/{x}/{y}.pbf".toList) ⟨3, 2, 20⟩
        (some 15)).url = "https://x/15/0/0.pbf".toList
    ∧ (renderCanvasDataPlan (fun l => l) ("https://x/{z}/{x}/{y}.pbf".toList) ⟨3, 2, 20⟩ 15).url
      ≠ (renderCanvasDataPlanVariant (fun l => l) ("https://x/{z}/{x}/{y}.pbf".toList)
          ⟨3, 2, 20⟩ (some 15)).url :=
  ⟨by decide, by decide, by decide, by decide⟩

theorem fillCount_drawOps (b : Bool) : fillCount (drawOps b) = 1 := by
  cases b <;> decide

theorem strokeCount_drawOps (b : Bool) :
    strokeCount (drawOps b) = if b then 1 else 0 := by
  cases b <;> decide

theorem renderPolygonGo_counts (b : Bool) :
    ∀ (coords : List (List Pt)) (vl : Nat), (∀ r ∈ coords, r ≠ []) →
    ∃ tail, renderPolygonGo b coords vl = .ok tail
      ∧ fillCount tail = specPolygonFlushCount (coords.map List.length) vl
      ∧ strokeCount tail = if b then fillCount tail else 0 := by
  intro coords
  induction coords with
  | nil =>
    intro vl _
    rw [renderPolygonGo]
    by_cases h : vl > 0
    · exact ⟨_, by rw [if_pos h], by
        simp [specPolygonFlushCount, if_pos h, fillCount_drawOps], by
        simp [fillCount_drawOps, strokeCount_drawOps]⟩
    · exact ⟨_, by rw [if_neg h], by
        simp [specPolygonFlushCount, if_neg h, fillCount, strokeCount], by
        simp [fillCount, strokeCount]⟩
  | cons v rest ih =>
    intro vl hne
    have hv : v ≠ [] := hne v (List.mem_cons_self v rest)
    obtain ⟨p, ps, rfl⟩ : ∃ p ps, v = p :: ps := by
      cases v with
      | nil => exact absurd rfl hv
      | cons p ps => exact ⟨p, ps, rfl⟩
    have hrest : ∀ r ∈ rest, r ≠ [] := fun r hr => hne r (List.mem_cons_of_mem _ hr)
    have hfill0 : CanvasOp.fill ∉ ps.map CanvasOp.lineTo := by simp
    have hstroke0 : CanvasOp.stroke ∉ ps.map CanvasOp.lineTo := by simp
    by_cases hflush : vl + (p :: ps).length > MAX_VERTICES_PER_CALL
    · obtain ⟨tail, htail, hcount, hstroke⟩ := ih (0 + (p :: ps).length) hrest
      refine ⟨(drawOps b ++ [CanvasOp.beginPath])
          ++ CanvasOp.moveTo p :: (ps.map CanvasOp.lineTo ++ tail), ?_, ?_, ?_⟩
      · rw [renderPolygonGo, if_pos hflush, htail]
      · simp only [List.map_cons, specPolygonFlushCount, if_pos hflush]
        simp only [fillCount, List.count_append, List.count_cons,
          List.count_eq_zero.mpr hfill0] at hcount ⊢
        have hd := fillCount_drawOps b
        simp only [fillCount] at hd
        simp [hd, hcount]
      · have hdf := fillCount_drawOps b
        have hds := strokeCount_drawOps b
        simp only [fillCount, strokeCount] at hdf hds hcount hstroke ⊢
        simp only [List.count_append, List.count_cons, List.count_eq_zero.mpr hfill0,
          List.count_eq_zero.mpr hstroke0, hdf, hds]
        cases b <;> simp_all
    · obtain ⟨tail, htail, hcount, hstroke⟩ := ih (vl + (p :: ps).length) hrest
      refine ⟨CanvasOp.moveTo p :: (ps.map CanvasOp.lineTo ++ tail), ?_, ?_, ?_⟩
      · rw [renderPolygonGo, if_neg hflush, htail]
      · simp only [List.map_cons, specPolygonFlushCount, if_neg hflush]
        simp only [fillCount, List.count_append, List.count_cons,
          List.count_eq_zero.mpr hfill0] at hcount ⊢
        simp [hcount]
      · simp only [fillCount, strokeCount] at hcount hstroke ⊢
        simp only [List.count_append, List.count_cons, List.count_eq_zero.mpr hfill0,
          List.count_eq_zero.mpr hstroke0]
        cases b <;> simp_all

theorem specPolygonFlushCount_pos :
    ∀ (lens : List Nat) (vl : Nat), 1 ≤ vl → 1 ≤ specPolygonFlushCount lens vl := by
  intro lens
  induction lens with
  | nil => intro vl h; rw [specPolygonFlushCount, if_pos (by omega)]
  | cons len rest ih =>
    intro vl h
    rw [specPolygonFlushCount]
    by_cases hf : vl + len > MAX_VERTICES_PER_CALL
    · rw [if_pos hf]; omega
    · rw [if_neg hf]; exact ih (vl + len) (by omega)

theorem specPolygonFlushCount_ge_two :
    ∀ (lens : List Nat), (∀ l ∈ lens, 1 ≤ l) →
    ∀ vl ≤ MAX_VERTICES_PER_CALL, MAX_VERTICES_PER_CALL < vl + lens.sum →
    2 ≤ specPolygonFlushCount lens vl := by
  intro lens
  induction lens with
  | nil =>
    intro _ vl hvl hsum
    simp at hsum
    omega
  | cons len rest ih =>
    intro hpos vl hvl hsum
    rw [specPolygonFlushCount]
    by_cases hf : vl + len > MAX_VERTICES_PER_CALL
    · rw [if_pos hf]
      have : 1 ≤ specPolygonFlushCount rest len :=
        specPolygonFlushCount_pos rest len (hpos len (List.mem_cons_self len rest))
      omega
    · rw [if_neg hf]
      refine ih (fun l hl => hpos l (List.mem_cons_of_mem _ hl)) (vl + len) (by omega) ?_
      simp [List.sum_cons] at hsum
      omega

theorem specPolygonFlushCount_le :
    ∀ (lens : List Nat) (vl : Nat), vl + lens.sum ≤ MAX_VERTICES_PER_CALL →
    specPolygonFlushCount lens vl = if 0 < vl + lens.sum then 1 else 0 := by
  intro lens
  induction lens with
  | nil => intro vl _; simp [specPolygonFlushCount]
  | cons len rest ih =>
    intro vl hle
    simp only [List.sum_cons] at hle ⊢
    rw [specPolygonFlushCount, if_neg (by omega)]
    rw [ih (vl + len) (by omega)]
    simp [Nat.add_assoc]

/-- C5 (amended): for a polygon all of whose rings are nonempty,
`_renderPolygon` succeeds; a flush (one `fill`, and one `stroke` iff the
resolved line width is positive) is emitted through exactly the claim's rule —
counted by `specPolygonFlushCount`: flush when adding the next ring would push
the accumulated vertex count above 5400, plus a final flush when vertices
remain.  Consequently rings totalling more than 5400 vertices produce at least
two flushes, and a *nonempty* total at or under 5400 produces exactly one.
(The claim's "exactly one" fails for a polygon with no rings, which flushes
nothing — see the counterexample.) -/
theorem c5_polygon_flush_batching (coordinates : List (List Pt)) (shouldRenderLine : Bool)
    (hne : ∀ r ∈ coordinates, r ≠ []) :
    ∃ ops, renderPolygon coordinates shouldRenderLine = .ok ops
      ∧ fillCount ops = specPolygonFlushCount (coordinates.map List.length) 0
      ∧ strokeCount ops = (if shouldRenderLine then fillCount ops else 0)
      ∧ (MAX_VERTICES_PER_CALL < (coordinates.map List.length).sum → 2 ≤ fillCount ops)
      ∧ (0 < (coordinates.map List.length).sum →
          (coordinates.map List.length).sum ≤ MAX_VERTICES_PER_CALL →
          fillCount ops = 1) := by
  obtain ⟨tail, htail, hfill, hstroke⟩ :=
    renderPolygonGo_counts shouldRenderLine coordinates 0 hne
  have hcons_fill : fillCount (CanvasOp.beginPath :: tail) = fillCount tail := by
    simp [fillCount]
  have hcons_stroke : strokeCount (CanvasOp.beginPath :: tail) = strokeCount tail := by
    simp [strokeCount]
  refine ⟨CanvasOp.beginPath :: tail, ?_, ?_, ?_, ?_, ?_⟩
  · rw [renderPolygon, htail]
  · rw [hcons_fill, hfill]
  · rw [hcons_stroke, hcons_fill, hstroke]
  · intro hgt
    rw [hcons_fill, hfill]
    refine specPolygonFlushCount_ge_two _ ?_ 0 (Nat.zero_le _) (by omega)
    intro l hl
    rw [List.mem_map] at hl
    obtain ⟨r, hr, rfl⟩ := hl
    exact List.length_pos.mpr (hne r hr)
  · intro hpos hle
    rw [hcons_fill, hfill, specPolygonFlushCount_le _ 0 (by omega)]
    simp only [Nat.zero_add]
    rw [if_pos hpos]

/-- Witness for C5: a single one-vertex ring — rings nonempty, total under
the ceiling, and the conclusion holds concretely (exactly one flush). -/
theorem c5_polygon_flush_batching_witness :
    (∀ r ∈ [[(⟨0, 0⟩ : Pt)]], r ≠ []) ∧
    (∃ ops, renderPolygon [[(⟨0, 0⟩ : Pt)]] true = .ok ops
      ∧ fillCount ops = specPolygonFlushCount ([[(⟨0, 0⟩ : Pt)]].map List.length) 0
      ∧ strokeCount ops = (if true then fillCount ops else 0)
      ∧ (MAX_VERTICES_PER_CALL < ([[(⟨0, 0⟩ : Pt)]].map List.length).sum → 2 ≤ fillCount ops)
      ∧ (0 < ([[(⟨0, 0⟩ : Pt)]].map List.length).sum →
          ([[(⟨0, 0⟩ : Pt)]].map List.length).sum ≤ MAX_VERTICES_PER_CALL →
          fillCount ops = 1)) :=
  ⟨by decide, c5_polygon_flush_batching [[(⟨0, 0⟩ : Pt)]] true (by decide)⟩

/-- Counterexample for C5: a polygon with no rings is at or under the ceiling
(total 0 ≤ 5400) but `_renderPolygon` emits no flush at all — only the initial
`beginPath` — falsifying the claim's "a polygon at or under the ceiling
produces exactly one" for the empty ring sequence. -/
theorem c5_empty_polygon_counterexample :
    (List.map List.length ([] : List (List Pt))).sum ≤ MAX_VERTICES_PER_CALL
    ∧ renderPolygon [] true = .ok [CanvasOp.beginPath]
    ∧ fillCount [CanvasOp.beginPath] = 0 :=
  ⟨by decide, rfl, by decide⟩

theorem lookup_mapSet_self {α : Type} (m : List (String × α)) (key : String) (v : α) :
    (mapSet m key v).lookup key = some v := by
  induction m with
  | nil => simp [mapSet, List.lookup]
  | cons kv rest ih =>
    obtain ⟨k', v'⟩ := kv
    rw [mapSet]
    by_cases h : k' = key
    · rw [if_pos h]
      simp [List.lookup, h]
    · rw [if_neg h]
      have hbe : (key == k') = false := by
        simp only [beq_eq_false_iff_ne, ne_eq]
        exact fun hEq => h hEq.symm
      simp only [List.lookup, hbe]
      exact ih

/-- C3: on a nonempty URL not yet cached, with a fetch that returns a buffer
and a decode that succeeds, `_cachedTile` performs exactly one fetch and one
decode, stores the tile, and an immediately repeated call returns the stored
value with no further fetch, decode, or state change. -/
theorem c3_cachedTile_single_decode (fetchBuf : String → Option Bytes)
    (decodeMVT : Bytes → Except String RawVectorTile) (u : String) (s : TileCacheState)
    (hu : u ≠ "") (hmiss : s.entries.lookup u = none)
    (ab : Bytes) (hfetch : fetchBuf u = some ab)
    (raw : RawVectorTile) (hdecode : decodeMVT ab = .ok raw) :
    ∃ t s1,
      cachedTile fetchBuf decodeMVT (some u) s = (.ok (some t), s1)
        ∧ s1.entries.lookup u = some t
        ∧ s1.decodeCount = s.decodeCount + 1
        ∧ s1.fetchCount = s.fetchCount + 1
        ∧ cachedTile fetchBuf decodeMVT (some u) s1 = (.ok (some t), s1) := by
  have hfalsy : urlFalsy (some u) = false := by simp [urlFalsy, hu]
  refine ⟨(tileToCacheableSome raw s.geomCount).1,
    { entries := mapSet s.entries u (tileToCacheableSome raw s.geomCount).1,
      fetchCount := s.fetchCount + 1, decodeCount := s.decodeCount + 1,
      geomCount := (tileToCacheableSome raw s.geomCount).2 }, ?_, ?_, rfl, rfl, ?_⟩
  · simp [cachedTile, defaultParseTile, fetchResourceAsArrayBuffer, tileToCacheable,
      hfalsy, hmiss, hfetch, hdecode]
  · exact lookup_mapSet_self _ _ _
  · simp [cachedTile, hfalsy, lookup_mapSet_self]

/-- Witness for C3: a concrete cold cache, successful fetch and decode. -/
theorem c3_cachedTile_single_decode_witness :
    ∃ t s1,
      cachedTile (fun _ => some [0]) (fun _ => .ok rawTileExample)
          (some "https://tiles/5/3/2.pbf") emptyCacheState = (.ok (some t), s1)
        ∧ s1.entries.lookup "https://tiles/5/3/2.pbf" = some t
        ∧ s1.decodeCount = emptyCacheState.decodeCount + 1
        ∧ s1.fetchCount = emptyCacheState.fetchCount + 1
        ∧ cachedTile (fun _ => some [0]) (fun _ => .ok rawTileExample)
            (some "https://tiles/5/3/2.pbf") s1 = (.ok (some t), s1) :=
  c3_cachedTile_single_decode (fun _ => some [0]) (fun _ => .ok rawTileExample)
    "https://tiles/5/3/2.pbf" emptyCacheState (by decide) rfl [0] rfl rawTileExample rfl

/-- C4 (amended): a falsy URL (undefined or empty) makes `_cachedTile` return
absent with no state change at all, and a failed *fetch* on an uncached URL
returns absent, throws nothing, and caches nothing (only the fetch counter
moves), so a subsequent call retries.  A failed *decode*, however, propagates
as a thrown exception (still caching nothing) — the claim's
"decode failure → absent without throwing" is what the counterexample
refutes. -/
theorem c4_failure_not_cached (fetchBuf : String → Option Bytes)
    (decodeMVT : Bytes → Except String RawVectorTile) (s : TileCacheState)
    (u : String) (hu : u ≠ "") (hmiss : s.entries.lookup u = none) :
    cachedTile fetchBuf decodeMVT none s = (.ok none, s)
    ∧ cachedTile fetchBuf decodeMVT (some "") s = (.ok none, s)
    ∧ (fetchBuf u = none →
        cachedTile fetchBuf decodeMVT (some u) s
          = (.ok none, { s with fetchCount := s.fetchCount + 1 }))
    ∧ (∀ ab e, fetchBuf u = some ab → decodeMVT ab = .error e →
        cachedTile fetchBuf decodeMVT (some u) s
          = (.error e, { s with fetchCount := s.fetchCount + 1,
                                decodeCount := s.decodeCount + 1 })) := by
  have hfalsy : urlFalsy (some u) = false := by simp [urlFalsy, hu]
  refine ⟨by simp [cachedTile, urlFalsy], by simp [cachedTile, urlFalsy], ?_, ?_⟩
  · intro hfetch
    simp [cachedTile, defaultParseTile, fetchResourceAsArrayBuffer, tileToCacheable,
      hfalsy, hmiss, hfetch]
  · intro ab e hfetch hdec
    simp [cachedTile, defaultParseTile, fetchResourceAsArrayBuffer, tileToCacheable,
      hfalsy, hmiss, hfetch, hdec]

/-- Witness for C4: concrete failing fetch on a cold cache. -/
theorem c4_failure_not_cached_witness :
    cachedTile (fun _ => none) (fun _ => .ok rawTileExample) none emptyCacheState
      = (.ok none, emptyCacheState)
    ∧ cachedTile (fun _ => none) (fun _ => .ok rawTileExample) (some "") emptyCacheState
      = (.ok none, emptyCacheState)
    ∧ ((fun _ : String => (none : Option Bytes)) "https://tiles/5/3/2.pbf" = none →
        cachedTile (fun _ => none) (fun _ => .ok rawTileExample)
            (some "https://tiles/5/3/2.pbf") emptyCacheState
          = (.ok none, { emptyCacheState with
                fetchCount := emptyCacheState.fetchCount + 1 }))
    ∧ (∀ ab e, (fun _ : String => (none : Option Bytes)) "https://tiles/5/3/2.pbf" = some ab →
        (fun _ : Bytes => (.ok rawTileExample : Except String RawVectorTile)) ab = .error e →
        cachedTile (fun _ => none) (fun _ => .ok rawTileExample)
            (some "https://tiles/5/3/2.pbf") emptyCacheState
          = (.error e, { emptyCacheState with
                fetchCount := emptyCacheState.fetchCount + 1,
                decodeCount := emptyCacheState.decodeCount + 1 })) :=
  c4_failure_not_cached (fun _ => none) (fun _ => .ok rawTileExample) emptyCacheState
    "https://tiles/5/3/2.pbf" (by decide) rfl

/-- Counterexample for C4: when the decoder throws (as the real decoder does
on malformed bytes — `requestImage` catches exactly such errors), `_cachedTile`
does *not* return absent: the exception propagates to the caller. -/
theorem c4_decode_throw_counterexample :
    (cachedTile (fun _ => some [7]) (fun _ => .error "Unimplemented type: 7")
        (some "https://tiles/5/3/2.pbf") emptyCacheState).1
      = .error "Unimplemented type: 7"
    ∧ (cachedTile (fun _ => some [7]) (fun _ => .error "Unimplemented type: 7")
        (some "https://tiles/5/3/2.pbf") emptyCacheState).1 ≠ .ok none := by
  have h1 : (cachedTile (fun _ => some [7]) (fun _ => .error "Unimplemented type: 7")
      (some "https://tiles/5/3/2.pbf") emptyCacheState).1
      = .error "Unimplemented type: 7" := rfl
  exact ⟨h1, by rw [h1]; exact fun h => Except.noConfusion h⟩

/-- C9: every tile produced by `tileToCacheable` has only idempotent feature
accessors: `loadGeometry()` returns the captured geometry at every call
without performing parse work (the counter passes through unchanged), and
likewise `bbox()` whenever the accessor is present. -/
theorem c9_cached_accessors_idempotent (v : RawVectorTile) (k : Nat) :
    ∃ ct kf, tileToCacheable (some v) k = (some ct, kf)
      ∧ ∀ nl ∈ ct.layers, ∀ f ∈ nl.2.features,
          (∀ n m : Nat, (f.loadGeometry n).1 = (f.loadGeometry m).1
            ∧ (f.loadGeometry n).2 = n)
          ∧ (∀ g, f.bboxFn = some g → ∀ n m : Nat, (g n).1 = (g m).1 ∧ (g n).2 = n) := by
  refine ⟨(tileToCacheableSome v k).1, (tileToCacheableSome v k).2, rfl, ?_⟩
  intro nl _ f _
  refine ⟨fun n m => ⟨rfl, rfl⟩, ?_⟩
  intro g hg n m
  obtain ⟨b, hb, rfl⟩ := Option.map_eq_some'.mp hg
  exact ⟨rfl, rfl⟩

/-- Witness for C9: the concrete example tile. -/
theorem c9_cached_accessors_idempotent_witness :
    ∃ ct kf, tileToCacheable (some rawTileExample) 0 = (some ct, kf)
      ∧ ∀ nl ∈ ct.layers, ∀ f ∈ nl.2.features,
          (∀ n m : Nat, (f.loadGeometry n).1 = (f.loadGeometry m).1
            ∧ (f.loadGeometry n).2 = n)
          ∧ (∀ g, f.bboxFn = some g → ∀ n m : Nat, (g n).1 = (g m).1 ∧ (g n).2 = n) :=
  c9_cached_accessors_idempotent rawTileExample 0

theorem pick_loop_eq {Info : Type} (hit : Geometry → Bool)
    (onSelect : CachedFeature → Option Info) (l : List CachedFeature) :
    ∀ acc : List Info,
      (List.range l.length).foldl
        (fun features i =>
          match l[i]? with
          | none => features
          | some feature =>
            if isPolygonType feature.ftype && hit (feature.loadGeometry 0).1 then
              match onSelect feature with
              | some feat => features ++ [feat]
              | none => features
            else features) acc
      = acc ++ l.filterMap (pickOne hit onSelect) := by
  induction l using List.reverseRecOn with
  | nil => intro acc; simp
  | append_singleton l a ih =>
    intro acc
    rw [List.length_append, List.length_singleton, List.range_succ, List.foldl_append]
    have hsame : (List.range l.length).foldl
        (fun features i =>
          match (l ++ [a])[i]? with
          | none => features
          | some feature =>
            if isPolygonType feature.ftype && hit (feature.loadGeometry 0).1 then
              match onSelect feature with
              | some feat => features ++ [feat]
              | none => features
            else features) acc
        = (List.range l.length).foldl
        (fun features i =>
          match l[i]? with
          | none => features
          | some feature =>
            if isPolygonType feature.ftype && hit (feature.loadGeometry 0).1 then
              match onSelect feature with
              | some feat => features ++ [feat]
              | none => features
            else features) acc := by
      refine List.foldl_ext _ _ acc ?_
      intro acc' i hi
      rw [List.mem_range] at hi
      rw [List.getElem?_append, if_pos hi]
    rw [hsame, ih acc]
    simp only [List.foldl_cons, List.foldl_nil]
    rw [List.getElem?_concat_length]
    rw [List.filterMap_append]
    simp only [List.filterMap_cons, List.filterMap_nil]
    unfold pickOne
    by_cases hcond : (isPolygonType a.ftype && hit (a.loadGeometry 0).1) = true
    · rw [if_pos hcond, if_pos hcond]
      cases h : onSelect a <;> simp [List.append_assoc]
    · rw [if_neg hcond, if_neg hcond]
      simp

theorem pickFeaturesLayer_eq_filterMap {Info : Type} (hit : Geometry → Bool)
    (onSelect : CachedFeature → Option Info) (layer : CachedLayer) :
    pickFeaturesLayer hit onSelect layer
      = layer.features.filterMap (pickOne hit onSelect) := by
  have h := pick_loop_eq hit onSelect layer.features []
  simpa [pickFeaturesLayer] using h

/-- C8: the pick result is the concatenation, in layer-declaration order, of
the per-layer results, each being the layer's features in order filtered by
the Polygon hit test and the selection transform (declined features dropped);
an absent layer (or tile) contributes the empty sequence, and nothing is
deduplicated across layers. -/
theorem c8_pick_concatenation {Info : Type} (hit : Geometry → Bool)
    (onSelect : CachedFeature → Option Info) (tile? : Option CachedTile)
    (layerNames : List String) :
    pickFeaturesFromLayer hit onSelect tile? layerNames
      = pickSpec hit onSelect tile? layerNames := by
  unfold pickFeaturesFromLayer pickSpec
  rw [List.flatMap_def]
  congr 1
  refine List.map_congr_left ?_
  intro name _
  cases tile?.bind (fun tile => tile.layers.lookup name) with
  | none => rfl
  | some layer => exact pickFeaturesLayer_eq_filterMap hit onSelect layer

/-- C1: `canQueue(layerKey, N)` is true exactly when either no pool exists for
the key or the (unique, by the registry invariant) existing pool's queue depth
is strictly below `N`; being a pure function of the registry, the call has no
side effect on the registry or any queue. -/
theorem c1_canQueue_admission (pools : PoolRegistry) (layerId : String)
    (maxQueuedJobs : Int) (h : keysNodup pools) :
    canQueue pools layerId maxQueuedJobs = true
      ↔ ∀ pool ∈ pools, pool.layerId = layerId →
          (pool.taskQueue.length : Int) < maxQueuedJobs := by
  unfold canQueue
  cases hfind : pools.find? (fun pool => pool.layerId == layerId) with
  | none =>
    simp only [true_iff]
    intro pool hmem hkey
    have := List.find?_eq_none.mp hfind pool hmem
    simp [hkey] at this
  | some workerPool =>
    have hmem := List.mem_of_find?_eq_some hfind
    have hkey : workerPool.layerId = layerId := by
      have := List.find?_some hfind
      simpa using this
    constructor
    · intro hlt pool hpmem hpkey
      have hinj := List.inj_on_of_nodup_map h
      have heq : pool = workerPool := hinj hpmem hmem (by rw [hpkey, hkey])
      rw [heq]
      simpa using hlt
    · intro hall
      simpa using hall workerPool hmem hkey

/-- Witness for C1: a registry with one pool of depth 2 under key "bldg". -/
theorem c1_canQueue_admission_witness :
    keysNodup [{ layerId := "bldg", taskQueue := [0, 1], size := 2 }]
    ∧ (canQueue [{ layerId := "bldg", taskQueue := [0, 1], size := 2 }] "bldg" 3 = true
        ↔ ∀ pool ∈ [({ layerId := "bldg", taskQueue := [0, 1], size := 2 } : WorkerPool)],
            pool.layerId = "bldg" → (pool.taskQueue.length : Int) < 3) :=
  ⟨by decide, c1_canQueue_admission _ "bldg" 3 (by decide)⟩

theorem canQueue_of_no_key (pools : PoolRegistry) (layerId : String) (n : Int)
    (h : ∀ pool ∈ pools, pool.layerId ≠ layerId) :
    canQueue pools layerId n = true := by
  unfold canQueue
  cases hfind : pools.find? (fun pool => pool.layerId == layerId) with
  | none => rfl
  | some workerPool =>
    exfalso
    have hmem := List.mem_of_find?_eq_some hfind
    have hk := List.find?_some hfind
    exact h workerPool hmem (by simpa using hk)

theorem destroyPool_of_no_key (pools : PoolRegistry) (layerId : String)
    (h : ∀ pool ∈ pools, pool.layerId ≠ layerId) :
    destroyPool pools layerId = ([], pools) := by
  induction pools with
  | nil => rfl
  | cons pool rest ih =>
    rw [destroyPool]
    have hne : (pool.layerId == layerId) = false := by
      simpa using h pool (List.mem_cons_self _ _)
    rw [hne]
    simp only [Bool.false_eq_true, if_false]
    rw [ih (fun q hq => h q (List.mem_cons_of_mem _ hq))]

theorem destroyPool_no_key (pools : PoolRegistry) (layerId : String) (h : keysNodup pools) :
    ∀ pool ∈ (destroyPool pools layerId).2, pool.layerId ≠ layerId := by
  induction pools with
  | nil => intro pool hmem; simp [destroyPool] at hmem
  | cons p rest ih =>
    intro pool hmem hkey
    rw [destroyPool] at hmem
    by_cases hp : (p.layerId == layerId) = true
    · rw [if_pos hp] at hmem
      have hpk : p.layerId = layerId := by simpa using hp
      have hnd : p.layerId ∉ rest.map (fun pool => pool.layerId) := by
        have hh := h
        unfold keysNodup at hh
        simp only [List.map_cons, List.nodup_cons] at hh
        exact hh.1
      exact hnd (by
        rw [hpk, ← hkey]
        exact List.mem_map_of_mem _ hmem)
    · rw [if_neg hp] at hmem
      rcases List.mem_cons.mp hmem with rfl | hmem'
      · exact hp (by simpa using hkey)
      · have hrest : keysNodup rest := by
          unfold keysNodup at h ⊢
          simp only [List.map_cons, List.nodup_cons] at h
          exact h.2
        exact ih hrest pool hmem' hkey

theorem destroyPool_force (pools : PoolRegistry) (layerId : String) :
    ∀ call ∈ (destroyPool pools layerId).1, call.force = true := by
  induction pools with
  | nil => intro call hmem; simp [destroyPool] at hmem
  | cons p rest ih =>
    intro call hmem
    rw [destroyPool] at hmem
    by_cases hp : (p.layerId == layerId) = true
    · rw [if_pos hp] at hmem
      simp at hmem
      rw [hmem]
    · rw [if_neg hp] at hmem
      exact ih call hmem

/-- C2: `destroy(layerKey)` removes the pool entry for the key when one
exists, so an immediately following `canQueue(layerKey, 1)` returns true; its
only termination call is forcible (`terminate(true)`, not awaiting in-flight
tasks); it is a no-op when no pool exists for the key; and it is idempotent. -/
theorem c2_destroy_teardown (pools : PoolRegistry) (layerId : String)
    (h : keysNodup pools) :
    canQueue (destroyPool pools layerId).2 layerId 1 = true
    ∧ ((∀ pool ∈ pools, pool.layerId ≠ layerId) → destroyPool pools layerId = ([], pools))
    ∧ (∀ call ∈ (destroyPool pools layerId).1, call.force = true)
    ∧ destroyPool (destroyPool pools layerId).2 layerId
        = ([], (destroyPool pools layerId).2) :=
  ⟨canQueue_of_no_key _ _ _ (destroyPool_no_key pools layerId h),
    destroyPool_of_no_key pools layerId,
    destroyPool_force pools layerId,
    destroyPool_of_no_key _ _ (destroyPool_no_key pools layerId h)⟩

/-- Witness for C2: a registry with one pool under key "bldg". -/
theorem c2_destroy_teardown_witness :
    keysNodup [{ layerId := "bldg", taskQueue := [0], size := 1 }]
    ∧ (canQueue (destroyPool [{ layerId := "bldg", taskQueue := [0], size := 1 }] "bldg").2
          "bldg" 1 = true
      ∧ ((∀ pool ∈ [({ layerId := "bldg", taskQueue := [0], size := 1 } : WorkerPool)],
            pool.layerId ≠ "bldg") →
          destroyPool [{ layerId := "bldg", taskQueue := [0], size := 1 }] "bldg"
            = ([], [{ layerId := "bldg", taskQueue := [0], size := 1 }]))
      ∧ (∀ call ∈ (destroyPool [{ layerId := "bldg", taskQueue := [0], size := 1 }] "bldg").1,
          call.force = true)
      ∧ destroyPool (destroyPool [{ layerId := "bldg", taskQueue := [0], size := 1 }] "bldg").2
          "bldg"
        = ([], (destroyPool [{ layerId := "bldg", taskQueue := [0], size := 1 }] "bldg").2)) :=
  ⟨by decide, c2_destroy_teardown [{ layerId := "bldg", taskQueue := [0], size := 1 }]
    "bldg" (by decide)⟩

theorem requestImage_true_eq (hw : Nat) (st : ProviderState) (cl : LayerSimple) :
    requestImage true hw (some cl) st
      = (if (maximumTasksPerImagery : Int) ≤ st.taskCount
            ∨ canQueue (switchPools st cl) cl.id (maximumTasks : Int) = false
         then (.backpressure, { st with pools := switchPools st cl, layerUsed := some cl })
         else (.started, { st with taskCount := st.taskCount + 1,
                                   outstanding := st.outstanding + 1,
                                   pools := queueTask (switchPools st cl) cl.id 0 hw,
                                   layerUsed := some cl })) := by
  rw [requestImage]
  by_cases hc : (maximumTasksPerImagery : Int) ≤ st.taskCount
      ∨ canQueue (switchPools st cl) cl.id (maximumTasks : Int) = false
  · rw [if_pos hc, if_pos (by simpa using hc)]
  · rw [if_neg hc, if_neg (by simpa using hc)]

/-- C10: with worker mode on, `requestImage` keeps the outstanding-task
counter within bounds: it returns without starting work whenever
`taskCount ≥ maximumTasksPerImagery` or the pool cannot admit; a started task
increments the counter by one before enqueueing and its single settlement
(success or failure) decrements it once, so `0 ≤ taskCount ≤ 6` is preserved
by every `requestImage` call and every settlement; and with no current layer
configured the call returns undefined with no side effect at all. -/
theorem c10_taskCount_invariant (hw : Nat) (st : ProviderState) (cl : LayerSimple)
    (hInv : ProviderInvariant st) :
    (requestImage true hw none st = (.noLayer, st)
      ∧ requestImage false hw none st = (.noLayer, st))
    ∧ ProviderInvariant (requestImage true hw (some cl) st).2
    ∧ ((maximumTasksPerImagery : Int) ≤ st.taskCount →
        (requestImage true hw (some cl) st).1 = .backpressure)
    ∧ ((requestImage true hw (some cl) st).1 ≠ .started →
        (requestImage true hw (some cl) st).2.taskCount = st.taskCount
        ∧ (requestImage true hw (some cl) st).2.outstanding = st.outstanding)
    ∧ ((requestImage true hw (some cl) st).1 = .started →
        st.taskCount < (maximumTasksPerImagery : Int)
        ∧ (requestImage true hw (some cl) st).2.taskCount = st.taskCount + 1
        ∧ (requestImage true hw (some cl) st).2.outstanding = st.outstanding + 1)
    ∧ (1 ≤ st.outstanding → ProviderInvariant (settleTask st)) := by
  obtain ⟨hEq, hLe⟩ := hInv
  refine ⟨⟨rfl, rfl⟩, ?_, ?_, ?_, ?_, ?_⟩
  · rw [requestImage_true_eq]
    by_cases hc : (maximumTasksPerImagery : Int) ≤ st.taskCount
        ∨ canQueue (switchPools st cl) cl.id (maximumTasks : Int) = false
    · rw [if_pos hc]
      exact ⟨hEq, hLe⟩
    · rw [if_neg hc]
      push_neg at hc
      refine ⟨by simp [hEq], ?_⟩
      simp only []
      omega
  · intro hge
    rw [requestImage_true_eq, if_pos (Or.inl hge)]
  · intro hne
    rw [requestImage_true_eq] at hne ⊢
    by_cases hc : (maximumTasksPerImagery : Int) ≤ st.taskCount
        ∨ canQueue (switchPools st cl) cl.id (maximumTasks : Int) = false
    · rw [if_pos hc]
      exact ⟨rfl, rfl⟩
    · rw [if_neg hc] at hne
      simp at hne
  · intro hs
    rw [requestImage_true_eq] at hs ⊢
    by_cases hc : (maximumTasksPerImagery : Int) ≤ st.taskCount
        ∨ canQueue (switchPools st cl) cl.id (maximumTasks : Int) = false
    · rw [if_pos hc] at hs
      simp at hs
    · rw [if_neg hc]
      push_neg at hc
      exact ⟨hc.1, rfl, rfl⟩
  · intro hout
    simp only [ProviderInvariant, settleTask]
    constructor
    · omega
    · omega

/-- Witness for C10: the idle provider state requesting under layer "bldg". -/
theorem c10_taskCount_invariant_witness :
    ProviderInvariant { taskCount := 0, outstanding := 0, pools := [], layerUsed := none }
    ∧ ((requestImage true 8 none
          { taskCount := 0, outstanding := 0, pools := [], layerUsed := none }
        = (.noLayer, { taskCount := 0, outstanding := 0, pools := [], layerUsed := none })
      ∧ requestImage false 8 none
          { taskCount := 0, outstanding := 0, pools := [], layerUsed := none }
        = (.noLayer, { taskCount := 0, outstanding := 0, pools := [], layerUsed := none }))
    ∧ ProviderInvariant (requestImage true 8 (some ⟨"bldg", 0⟩)
        { taskCount := 0, outstanding := 0, pools := [], layerUsed := none }).2
    ∧ ((maximumTasksPerImagery : Int)
          ≤ ({ taskCount := 0, outstanding := 0, pools := [],
                layerUsed := none } : ProviderState).taskCount →
        (requestImage true 8 (some ⟨"bldg", 0⟩)
          { taskCount := 0, outstanding := 0, pools := [], layerUsed := none }).1
          = .backpressure)
    ∧ ((requestImage true 8 (some ⟨"bldg", 0⟩)
          { taskCount := 0, outstanding := 0, pools := [], layerUsed := none }).1 ≠ .started →
        (requestImage true 8 (some ⟨"bldg", 0⟩)
          { taskCount := 0, outstanding := 0, pools := [], layerUsed := none }).2.taskCount = 0
        ∧ (requestImage true 8 (some ⟨"bldg", 0⟩)
            { taskCount := 0, outstanding := 0, pools := [],
              layerUsed := none }).2.outstanding = 0)
    ∧ ((requestImage true 8 (some ⟨"bldg", 0⟩)
          { taskCount := 0, outstanding := 0, pools := [], layerUsed := none }).1 = .started →
        (0 : Int) < (maximumTasksPerImagery : Int)
        ∧ (requestImage true 8 (some ⟨"bldg", 0⟩)
            { taskCount := 0, outstanding := 0, pools := [],
              layerUsed := none }).2.taskCount = 0 + 1
        ∧ (requestImage true 8 (some ⟨"bldg", 0⟩)
            { taskCount := 0, outstanding := 0, pools := [],
              layerUsed := none }).2.outstanding = 0 + 1)
    ∧ (1 ≤ ({ taskCount := 0, outstanding := 0, pools := [],
              layerUsed := none } : ProviderState).outstanding →
        ProviderInvariant (settleTask
          { taskCount := 0, outstanding := 0, pools := [], layerUsed := none }))) :=
  ⟨by decide, c10_taskCount_invariant 8
    { taskCount := 0, outstanding := 0, pools := [], layerUsed := none } ⟨"bldg", 0⟩
    (by decide)⟩


end MVT
